import Mathlib

/-!
Verification of the stroke-to-stamp rendering pipeline of the `brocreate`
freehand painting surface.

The development shallowly embeds the pipeline's source:

* `src/lib/core/math/Spline.ts` — `catmullRomPoint`, `catmullRomLength`
  (the Curve Interpolator);
* `src/lib/core/brushes/Brush.ts` — the `Brush` value object and its
  constructor defaults;
* `src/lib/components/Canvas.svelte` — the pointer handlers
  (`onDrawStart`, `onDrawMove`, `onDrawEnd`), the segmenter
  (`drawSplineSegment`), the stamp compositor (`paintBrush`), and the
  trail/flatten lifecycle (`scheduleFlatten`, `flatten`, `clear`).

JavaScript `number`s are modelled as real numbers; `Math.hypot(a, b)` is
`Real.sqrt (a^2 + b^2)`; `Math.random()` draws are passed in explicitly as
parameters; the PIXI renderer's `generateTexture` call is passed in as an
`Except` value so that both a successful rasterization and a thrown
exception can be analysed.
-/

noncomputable section

/-- A 2-D point (`PIXI.Point`): an x/y pair of JS numbers. -/
@[ext]
structure Pt where
  x : ℝ
  y : ℝ

/-- `Math.hypot(dx, dy)` — the Euclidean norm of the pair. -/
def hypot (dx dy : ℝ) : ℝ := Real.sqrt (dx ^ 2 + dy ^ 2)

/-- `catmullRomPoint` from `Spline.ts`: evaluates the Catmull-Rom cubic at
parameter `t` through the four control points, componentwise on x and y. -/
def catmullRomPoint (t : ℝ) (p0 p1 p2 p3 : Pt) : Pt :=
  let t2 := t * t
  let t3 := t2 * t
  { x := 0.5 * ((2 * p1.x) + (-p0.x + p2.x) * t +
        (2 * p0.x - 5 * p1.x + 4 * p2.x - p3.x) * t2 +
        (-p0.x + 3 * p1.x - 3 * p2.x + p3.x) * t3)
    y := 0.5 * ((2 * p1.y) + (-p0.y + p2.y) * t +
        (2 * p0.y - 5 * p1.y + 4 * p2.y - p3.y) * t2 +
        (-p0.y + 3 * p1.y - 3 * p2.y + p3.y) * t3) }

/-- `catmullRomLength` from `Spline.ts`: walks `t = i / samples` for
`i = 1 .. samples`, summing `Math.hypot` distances between consecutive
evaluated points, starting from `prevPoint = p1`.  The source declares
`samples = 20` as a default argument; callers here pass it explicitly. -/
def catmullRomLength (p0 p1 p2 p3 : Pt) (samples : ℕ) : ℝ :=
  ((List.range samples).foldl
    (fun (acc : ℝ × Pt) (i : ℕ) =>
      let t := ((i : ℝ) + 1) / (samples : ℝ)
      let currPoint := catmullRomPoint t p0 p1 p2 p3
      (acc.1 + hypot (currPoint.x - acc.2.x) (currPoint.y - acc.2.y),
        currPoint))
    (0, p1)).1

/-- Distance between two points, as computed by the source's
`Math.hypot(b.x - a.x, b.y - a.y)` idiom. -/
def ptDist (a b : Pt) : ℝ := hypot (b.x - a.x) (b.y - a.y)

/-- The `i`-th of `n` equally spaced curve samples, `P(i / n)`. -/
def curveSample (p0 p1 p2 p3 : Pt) (n i : ℕ) : Pt :=
  catmullRomPoint ((i : ℝ) / (n : ℝ)) p0 p1 p2 p3

lemma catmullRomPoint_zero (p0 p1 p2 p3 : Pt) :
    catmullRomPoint 0 p0 p1 p2 p3 = p1 := by
  ext <;> simp [catmullRomPoint] <;> ring

lemma catmullRomPoint_one (p0 p1 p2 p3 : Pt) :
    catmullRomPoint 1 p0 p1 p2 p3 = p2 := by
  ext <;> simp [catmullRomPoint] <;> ring

/-- Embedding of a point into `ℂ`, used to borrow the metric-space facts
about the Euclidean plane. -/
def toComplex (p : Pt) : ℂ := ⟨p.x, p.y⟩

lemma ptDist_eq_dist (a b : Pt) :
    ptDist a b = dist (toComplex a) (toComplex b) := by
  rw [Complex.dist_eq_re_im]
  simp only [ptDist, hypot, toComplex]
  ring_nf

lemma ptDist_nonneg (a b : Pt) : 0 ≤ ptDist a b :=
  Real.sqrt_nonneg _

lemma ptDist_triangle (a b c : Pt) :
    ptDist a c ≤ ptDist a b + ptDist b c := by
  simp only [ptDist_eq_dist]
  exact dist_triangle _ _ _

/-- The running `(length, prevPoint)` state of the `catmullRomLength` loop
after the first `m` of `n` iterations. -/
lemma catmullRomLength_foldl_inv (p0 p1 p2 p3 : Pt) (n m : ℕ) :
    ((List.range m).foldl
      (fun (acc : ℝ × Pt) (i : ℕ) =>
        let t := ((i : ℝ) + 1) / (n : ℝ)
        let currPoint := catmullRomPoint t p0 p1 p2 p3
        (acc.1 + hypot (currPoint.x - acc.2.x) (currPoint.y - acc.2.y),
          currPoint))
      ((0 : ℝ), p1)) =
    (∑ i ∈ Finset.range m,
        ptDist (curveSample p0 p1 p2 p3 n i) (curveSample p0 p1 p2 p3 n (i + 1)),
      curveSample p0 p1 p2 p3 n m) := by
  induction m with
  | zero =>
      simp [curveSample, Nat.cast_zero, zero_div, catmullRomPoint_zero]
  | succ m ih =>
      rw [List.range_succ, List.foldl_append, ih]
      have hc : ((m : ℝ) + 1) = (((m + 1 : ℕ)) : ℝ) := by push_cast; ring
      simp only [List.foldl_cons, List.foldl_nil, Finset.sum_range_succ,
        Prod.mk.injEq]
      rw [hc]
      exact ⟨rfl, rfl⟩

/-- `catmullRomLength` is the polyline length over the uniform parameter
partition `0, 1/n, …, 1` (the loop's `prevPoint` starts at `p1 = P(0)`). -/
lemma catmullRomLength_eq_sum (p0 p1 p2 p3 : Pt) (n : ℕ) :
    catmullRomLength p0 p1 p2 p3 n =
      ∑ i ∈ Finset.range n,
        ptDist (curveSample p0 p1 p2 p3 n i)
          (curveSample p0 p1 p2 p3 n (i + 1)) := by
  unfold catmullRomLength
  rw [catmullRomLength_foldl_inv]

/-- C7: `pointOnCurve(0, …) = p1` and `pointOnCurve(1, …) = p2` exactly, for
any control points. -/
theorem c7_endpoint_interpolation (p0 p1 p2 p3 : Pt) :
    catmullRomPoint 0 p0 p1 p2 p3 = p1 ∧ catmullRomPoint 1 p0 p1 p2 p3 = p2 :=
  ⟨catmullRomPoint_zero p0 p1 p2 p3, catmullRomPoint_one p0 p1 p2 p3⟩

/-- C3 counterexample: with `p = (0,0)`, `q = (1,0)` and `t = 1/4`, the
doubled-endpoint Catmull-Rom evaluates to x = 13/64, while the linear
interpolation `p + t*(q - p)` has x = 1/4 = 16/64, so the claimed identity
fails. -/
theorem c3_counterexample :
    catmullRomPoint (1/4) ⟨0, 0⟩ ⟨0, 0⟩ ⟨1, 0⟩ ⟨1, 0⟩ ≠
      (⟨0 + (1/4) * (1 - 0), 0 + (1/4) * (0 - 0)⟩ : Pt) := by
  intro h
  have hx := congrArg Pt.x h
  simp only [catmullRomPoint] at hx
  norm_num at hx

/-- C3 amended: with the first two and last two control points duplicated,
`pointOnCurve(t, p, p, q, q)` moves along the segment from `p` to `q`, but
with the cubic weight `(t + 3t² - 2t³)/2` in place of `t`: it equals
`p + s*(q - p)` with `s = (t + 3t² - 2t³)/2` (which is 0 at `t = 0` and 1 at
`t = 1`), not the linear interpolation `p + t*(q - p)`. -/
theorem c3_amended_reduces_to_weighted_segment (p q : Pt) (t : ℝ) :
    catmullRomPoint t p p q q =
      ⟨p.x + ((t + 3 * t ^ 2 - 2 * t ^ 3) / 2) * (q.x - p.x),
       p.y + ((t + 3 * t ^ 2 - 2 * t ^ 3) / 2) * (q.y - p.y)⟩ := by
  ext <;> simp [catmullRomPoint] <;> ring

/-- A polyline chord is at most the sum of the chords of any chain of
intermediate points (iterated triangle inequality). -/
lemma ptDist_chain (g : ℕ → Pt) (a k : ℕ) :
    ptDist (g a) (g (a + k)) ≤
      ∑ j ∈ Finset.range k, ptDist (g (a + j)) (g (a + j + 1)) := by
  simp only [ptDist_eq_dist]
  have h := dist_le_range_sum_dist (fun j => toComplex (g (a + j))) k
  simpa using h

/-- Summing a function over `range (m * k)` in `m` consecutive blocks of
size `k`. -/
lemma sum_range_mul_blocks {M : Type*} [AddCommMonoid M] (f : ℕ → M)
    (m k : ℕ) :
    ∑ i ∈ Finset.range m, ∑ j ∈ Finset.range k, f (i * k + j) =
      ∑ j ∈ Finset.range (m * k), f j := by
  induction m with
  | zero => simp
  | succ m ih =>
      rw [Finset.sum_range_succ, ih, Nat.succ_mul]
      rw [Finset.range_eq_Ico]
      rw [← Finset.sum_Ico_consecutive f (Nat.zero_le (m * k))
        (Nat.le_add_right (m * k) k)]
      congr 1
      rw [Finset.sum_Ico_eq_sum_range, Finset.sum_Ico_eq_sum_range]
      simp

/-- C4 amended: `estimateLength` is monotone under refinement of the sample
partition: the estimate with `m` samples is at most the estimate with
`m * k` samples, for every positive multiplier `k`.  (It is not monotone for
arbitrary `m ≤ n`; see the counterexample.) -/
theorem c4_amended_refinement (p0 p1 p2 p3 : Pt) (m k : ℕ) (hk : 0 < k) :
    catmullRomLength p0 p1 p2 p3 m ≤ catmullRomLength p0 p1 p2 p3 (m * k) := by
  rw [catmullRomLength_eq_sum, catmullRomLength_eq_sum]
  have hkR : ((k : ℝ)) ≠ 0 := by exact_mod_cast hk.ne'
  have hsamp : ∀ i : ℕ,
      curveSample p0 p1 p2 p3 m i = curveSample p0 p1 p2 p3 (m * k) (i * k) := by
    intro i
    unfold curveSample
    congr 1
    push_cast
    rw [mul_div_mul_right _ _ hkR]
  calc
    ∑ i ∈ Finset.range m,
        ptDist (curveSample p0 p1 p2 p3 m i) (curveSample p0 p1 p2 p3 m (i + 1))
      = ∑ i ∈ Finset.range m,
          ptDist (curveSample p0 p1 p2 p3 (m * k) (i * k))
            (curveSample p0 p1 p2 p3 (m * k) (i * k + k)) := by
        refine Finset.sum_congr rfl fun i _ => ?_
        rw [hsamp i, hsamp (i + 1), add_one_mul]
    _ ≤ ∑ i ∈ Finset.range m, ∑ j ∈ Finset.range k,
          ptDist (curveSample p0 p1 p2 p3 (m * k) (i * k + j))
            (curveSample p0 p1 p2 p3 (m * k) (i * k + j + 1)) :=
        Finset.sum_le_sum fun i _ =>
          ptDist_chain (curveSample p0 p1 p2 p3 (m * k)) (i * k) k
    _ = ∑ j ∈ Finset.range (m * k),
          ptDist (curveSample p0 p1 p2 p3 (m * k) j)
            (curveSample p0 p1 p2 p3 (m * k) (j + 1)) :=
        sum_range_mul_blocks
          (fun j => ptDist (curveSample p0 p1 p2 p3 (m * k) j)
            (curveSample p0 p1 p2 p3 (m * k) (j + 1))) m k

/-- Witness for the amended C4 theorem at `m = 1`, `k = 2` on concrete
control points. -/
theorem c4_amended_witness :
    0 < 2 ∧
      catmullRomLength ⟨-1, -72⟩ ⟨0, 0⟩ ⟨1, 0⟩ ⟨2, -72⟩ 1 ≤
        catmullRomLength ⟨-1, -72⟩ ⟨0, 0⟩ ⟨1, 0⟩ ⟨2, -72⟩ (1 * 2) :=
  ⟨by decide,
    c4_amended_refinement ⟨-1, -72⟩ ⟨0, 0⟩ ⟨1, 0⟩ ⟨2, -72⟩ 1 2 (by decide)⟩

/-- C4 counterexample: with control points `(-1,-72), (0,0), (1,0), (2,-72)`
the Catmull-Rom segment is the parabola `t ↦ (t, 36t - 36t²)`; its polyline
estimate with 3 samples (≈ 16.35) is strictly smaller than with 2 samples
(≈ 18.03), so the estimate is not monotone in the sample count. -/
theorem c4_counterexample :
    catmullRomLength ⟨-1, -72⟩ ⟨0, 0⟩ ⟨1, 0⟩ ⟨2, -72⟩ 3 <
      catmullRomLength ⟨-1, -72⟩ ⟨0, 0⟩ ⟨1, 0⟩ ⟨2, -72⟩ 2 := by
  rw [catmullRomLength_eq_sum, catmullRomLength_eq_sum]
  norm_num [Finset.sum_range_succ, curveSample, catmullRomPoint, ptDist, hypot]
  have h9 : Real.sqrt 9 = 3 := by
    rw [show (9 : ℝ) = 3 ^ 2 by norm_num, Real.sqrt_sq (by norm_num)]
  have h4 : Real.sqrt 4 = 2 := by
    rw [show (4 : ℝ) = 2 ^ 2 by norm_num, Real.sqrt_sq (by norm_num)]
  have h577 : Real.sqrt 577 < 25 := by
    rw [Real.sqrt_lt' (by norm_num)]
    norm_num
  have h325 : (18 : ℝ) < Real.sqrt 325 := by
    rw [Real.lt_sqrt (by norm_num)]
    norm_num
  rw [h9, h4]
  linarith

/-- A renderable texture handle: `PIXI.Texture.EMPTY`, a texture loaded from
an asset, or a texture produced by `renderer.generateTexture`. -/
inductive Tex where
  | empty : Tex
  | asset : ℕ → Tex
  | generated : ℕ → Tex
deriving DecidableEq

/-- `BrushShape` from `Brush.ts`. -/
structure BrushShape where
  texture : Tex
  grainTexture : Tex

/-- `BrushStrokePath` from `Brush.ts`. -/
structure BrushStrokePath where
  spacing : ℝ
  jitter : ℝ
  falloff : ℝ

/-- `BrushGrain` from `Brush.ts`. -/
structure BrushGrain where
  scale : ℝ
  intensity : ℝ
  rotation : ℝ

/-- The `Brush` value object from `Brush.ts`. -/
structure Brush where
  shape : BrushShape
  stroke : BrushStrokePath
  grain : BrushGrain
  size : ℝ
  color : String
  alpha : ℝ

/-- The default brush built by the `Brush` constructor. -/
def defaultBrush : Brush :=
  { shape := { texture := Tex.empty, grainTexture := Tex.empty }
    stroke := { spacing := 0.05, jitter := 0, falloff := 0 }
    grain := { scale := 1.0, intensity := 0.5, rotation := 0 }
    size := 50
    color := "#000000"
    alpha := 1.0 }

/-- A handle to a live trail primitive (a `PIXI.Sprite` pushed on `trail`). -/
abbrev SpriteHandle : Type := ℕ

/-- The mutable component state of `Canvas.svelte` that the drawing and
flatten logic touches: the stroke-active flag, the path/pressure sequences,
the live trail, the flattened `permanentSprite` texture, and whether a
debounced flatten timer is pending (`flattenTimeout`). -/
structure CanvasState where
  isDrawing : Bool
  pathPoints : List Pt
  pressurePoints : List ℝ
  trail : List SpriteHandle
  permanentTexture : Tex
  flattenPending : Bool

/-- The arguments of one `drawSplineSegment(p0, p1, p2, p3, pressure1,
pressure2)` call made by the pointer handlers. -/
structure SegmentCall where
  p0 : Pt
  p1 : Pt
  p2 : Pt
  p3 : Pt
  pressure1 : ℝ
  pressure2 : ℝ

/-- `onDrawStart`: marks the stroke active and resets the path and pressure
sequences to the event's point and pressure. -/
def onDrawStart (s : CanvasState) (point : Pt) (pressure : ℝ) : CanvasState :=
  { s with isDrawing := true
           pathPoints := [point]
           pressurePoints := [pressure] }

/-- `onDrawMove`: drops the sample if the stroke is inactive or the point is
within 4 device pixels of the last accepted point; otherwise appends it and
invokes the segmenter.  The second return component is the
`drawSplineSegment` call made, if any.  (`pathPoints[pathPoints.length-1]`
is well defined in the source because the path is nonempty whenever
`isDrawing`; `getLastD`'s default is never consulted in that case.) -/
def onDrawMove (s : CanvasState) (newPoint : Pt) (pressure : ℝ) :
    CanvasState × Option SegmentCall :=
  -- `if (!isDrawing) return;`
  if s.isDrawing then
  let lastPoint := s.pathPoints.getLastD newPoint
  if hypot (newPoint.x - lastPoint.x) (newPoint.y - lastPoint.y) < 4 then
    (s, none)
  else
    let pathPoints' := s.pathPoints ++ [newPoint]
    let pressurePoints' := s.pressurePoints ++ [pressure]
    let s' := { s with pathPoints := pathPoints'
                       pressurePoints := pressurePoints' }
    if pathPoints'.length = 2 then
      -- first segment: the first point doubles as both p0 and p1
      (s', some { p0 := pathPoints'.getD 0 newPoint
                  p1 := pathPoints'.getD 0 newPoint
                  p2 := pathPoints'.getD 1 newPoint
                  p3 := pathPoints'.getD 1 newPoint
                  pressure1 := pressurePoints'.getD 0 pressure
                  pressure2 := pressurePoints'.getD 1 pressure })
    else
      let i := pathPoints'.length - 2
      if i < 1 then (s', none) else
      let p1 := pathPoints'.getD i newPoint
      let p2 := pathPoints'.getD (i + 1) newPoint
      -- `pathPoints[i - 1] || pathPoints[i]`
      let p0 := pathPoints'.getD (i - 1) p1
      -- `pathPoints[i + 2] || p2`: index i + 2 = pathPoints.length is always
      -- out of range here, so this always falls back to p2
      let p3 := pathPoints'.getD (i + 2) p2
      (s', some { p0 := p0, p1 := p1, p2 := p2, p3 := p3
                  pressure1 := pressurePoints'.getD i pressure
                  pressure2 := pressurePoints'.getD (i + 1) pressure })
  else (s, none)

/-- JavaScript's `a || b` on numbers: `a` unless `a` is falsy (0). -/
def jsNumOr (a b : ℝ) : ℝ := if a = 0 then b else a

/-- `scheduleFlatten`: clears any prior pending flatten timer and starts a
new 500 ms one; modelled as (re)arming the pending flag. -/
def scheduleFlatten (s : CanvasState) : CanvasState :=
  { s with flattenPending := true }

/-- `onDrawEnd`: if a stroke with at least two points is active, processes a
final trailing segment (with `p3` duplicated to `p2`); then deactivates the
stroke, clears the path and pressure sequences, and schedules a flatten.
The second return component is the `drawSplineSegment` call made, if any.
(`pressurePoints[i + 1] || pressure1` uses JS truthiness, so a recorded
pressure of exactly 0 also falls back to `pressure1`; an out-of-range index
is modelled by a default of 0, which the same `||` sends to `pressure1`.) -/
def onDrawEnd (s : CanvasState) : CanvasState × Option SegmentCall :=
  let seg :=
    if s.isDrawing ∧ 1 < s.pathPoints.length then
      let i := s.pathPoints.length - 2
      let p1 := s.pathPoints.getD i ⟨0, 0⟩
      -- `pathPoints[i - 1] || pathPoints[i]` (JS index -1 reads undefined;
      -- with ℕ subtraction i - 1 = 0 = i in that case, the same value)
      let p0 := s.pathPoints.getD (i - 1) p1
      -- `pathPoints[i + 1] || p1`
      let p2 := s.pathPoints.getD (i + 1) p1
      let p3 := p2
      let pressure1 := s.pressurePoints.getD i 0
      let pressure2 := jsNumOr (s.pressurePoints.getD (i + 1) 0) pressure1
      some { p0 := p0, p1 := p1, p2 := p2, p3 := p3
             pressure1 := pressure1, pressure2 := pressure2 }
    else none
  (scheduleFlatten
    { s with isDrawing := false, pathPoints := [], pressurePoints := [] },
    seg)

/-- One stamp request produced by the segmenter: an interpolated curve
position and an interpolated pressure, consumed by `paintBrush`. -/
structure StampRequest where
  pos : Pt
  pressure : ℝ

/-- `drawSplineSegment`: estimates the segment length, derives the stamp
spacing and count from the brush and the average pressure, and emits one
stamp request at `t = i / numSteps` for each `i` in `0 .. numSteps`
inclusive. -/
def drawSplineSegment (brush : Brush) (c : SegmentCall) : List StampRequest :=
  let segmentLength := catmullRomLength c.p0 c.p1 c.p2 c.p3 20
  let avgPressure := (c.pressure1 + c.pressure2) / 2
  let actualPressure := if avgPressure > 0 then avgPressure else 0.5
  let brushSize := brush.size * actualPressure
  let spacing := max 1 (brushSize * brush.stroke.spacing)
  let numSteps := (max 1 ⌈segmentLength / spacing⌉).toNat
  (List.range (numSteps + 1)).map fun (i : ℕ) =>
    let t := (i : ℝ) / (numSteps : ℝ)
    { pos := catmullRomPoint t c.p0 c.p1 c.p2 c.p3
      pressure := c.pressure1 + (c.pressure2 - c.pressure1) * t }

/-- The base stamp sprite configured by `paintBrush`: jittered position,
size (`width = height = stampSize`) and alpha.  The colour-matrix tint is
renderer configuration and carries no data beyond `brush.color`. -/
structure StampSprite where
  x : ℝ
  y : ℝ
  size : ℝ
  alpha : ℝ

/-- The optional grain overlay sprite configured by `paintBrush`
(multiply-blended, drawn behind the base stamp). -/
structure GrainSprite where
  x : ℝ
  y : ℝ
  size : ℝ
  rotation : ℝ
  alpha : ℝ

/-- `paintBrush`: substitutes pressure 0 with 0.5, sizes the stamp by
`brush.size × pressure`, jitters its position by a fresh uniform draw per
axis (`randX`, `randY` stand for the two `Math.random()` calls), floors the
alpha at 0.2, and adds a grain overlay when a grain texture is configured. -/
def paintBrush (brush : Brush) (x y pressure : ℝ) (randX randY : ℝ) :
    StampSprite × Option GrainSprite :=
  let actualPressure := if pressure > 0 then pressure else 0.5
  let stampSize := brush.size * actualPressure
  let jitterAmount := stampSize * brush.stroke.jitter
  let posX := x + (randX - 0.5) * jitterAmount
  let posY := y + (randY - 0.5) * jitterAmount
  let stamp : StampSprite :=
    { x := posX, y := posY, size := stampSize
      alpha := max 0.2 (actualPressure * brush.alpha) }
  let grainSprite :=
    if brush.shape.grainTexture ≠ Tex.empty then
      some { x := posX, y := posY, size := stampSize * brush.grain.scale
             rotation := brush.grain.rotation
             alpha := brush.grain.intensity : GrainSprite }
    else none
  (stamp, grainSprite)

/-- Renders every stamp request of one processed segment, feeding each
`paintBrush` call its pair of `Math.random()` draws from the stream
`rand`. -/
def renderSegment (brush : Brush) (c : SegmentCall) (rand : ℕ → ℝ × ℝ) :
    List (StampSprite × Option GrainSprite) :=
  (drawSplineSegment brush c).mapIdx fun i req =>
    paintBrush brush req.pos.x req.pos.y req.pressure (rand i).1 (rand i).2

/-- Renders a whole stroke: one `renderSegment` per processed segment, each
with its own randomness stream. -/
def renderStroke (brush : Brush) (calls : List SegmentCall)
    (rand : ℕ → ℕ → ℝ × ℝ) : List (List (StampSprite × Option GrainSprite)) :=
  calls.mapIdx fun j c => renderSegment brush c (rand j)

/-- The outcome of the renderer's `generateTexture` call during `flatten`:
either a freshly rasterized texture or a thrown error. -/
inductive RasterError where
  | generateTextureFailed : RasterError
deriving DecidableEq

/-- `flatten`: rasterizes the stage (`raster` is the outcome of the
`generateTexture` call), assigns the result to the persistent sprite, then
pops and destroys every trail sprite.  If `generateTexture` throws, the
exception propagates before any assignment: the state is returned unchanged,
nothing is destroyed, and the error surfaces in the third component.  The
second component lists the destroyed sprites in destruction (pop) order. -/
def flatten (raster : Except RasterError Tex) (s : CanvasState) :
    CanvasState × List SpriteHandle × Option RasterError :=
  match raster with
  | Except.error e => (s, [], some e)
  | Except.ok renderTexture =>
      ({ s with permanentTexture := renderTexture, trail := [] },
        s.trail.reverse, none)

/-- `clear`: resets the persistent sprite to the empty texture, then pops
and destroys every trail sprite (second component, in pop order).  The
source's `clear` does not touch `flattenTimeout`. -/
def clear (s : CanvasState) : CanvasState × List SpriteHandle :=
  ({ s with permanentTexture := Tex.empty, trail := [] }, s.trail.reverse)

/-- The effective pressure used by the segmenter: the average of the two
endpoint pressures, or 0.5 when that average is not positive. -/
def segEffectivePressure (c : SegmentCall) : ℝ :=
  if (c.pressure1 + c.pressure2) / 2 > 0 then (c.pressure1 + c.pressure2) / 2
  else 0.5

/-- The stamp spacing of a processed segment:
`max(1, brush.size × effectivePressure × spacingFraction)`. -/
def segSpacing (brush : Brush) (c : SegmentCall) : ℝ :=
  max 1 (brush.size * segEffectivePressure c * brush.stroke.spacing)

/-- The stamp count of a processed segment:
`max(1, ceil(segmentLength / spacing))`. -/
def segStampCount (brush : Brush) (c : SegmentCall) : ℕ :=
  (max 1 ⌈catmullRomLength c.p0 c.p1 c.p2 c.p3 20 / segSpacing brush c⌉).toNat

/-- C5: every processed segment uses spacing
`max(1, brush.size × effectivePressure × spacingFraction)` and stamp count
`max(1, ceil(segmentLength / spacing))`, and emits one stamp request at
`t = i / stampCount` for each `i` in `0 .. stampCount` inclusive; the
spacing is at least 1 (so the division never divides by zero), the stamp
count is at least 1, and every segment — zero-length and degenerate ones
included — yields at least one stamp. -/
theorem c5_spacing_and_stamp_count (brush : Brush) (c : SegmentCall) :
    drawSplineSegment brush c =
        (List.range (segStampCount brush c + 1)).map (fun i =>
          { pos := catmullRomPoint ((i : ℝ) / (segStampCount brush c : ℝ))
              c.p0 c.p1 c.p2 c.p3
            pressure := c.pressure1 + (c.pressure2 - c.pressure1) *
              ((i : ℝ) / (segStampCount brush c : ℝ)) }) ∧
      1 ≤ segSpacing brush c ∧
      segSpacing brush c ≠ 0 ∧
      1 ≤ segStampCount brush c ∧
      (drawSplineSegment brush c).length = segStampCount brush c + 1 := by
  have hsp : (1 : ℝ) ≤ segSpacing brush c := le_max_left 1 _
  have hcount : 1 ≤ segStampCount brush c := by
    have h0 : (0 : ℤ) ≤ max 1 ⌈catmullRomLength c.p0 c.p1 c.p2 c.p3 20 /
        segSpacing brush c⌉ :=
      le_trans zero_le_one (le_max_left 1 _)
    exact (Int.le_toNat h0).mpr (by exact_mod_cast le_max_left 1 _)
  have hlist : drawSplineSegment brush c =
      (List.range (segStampCount brush c + 1)).map (fun i =>
        { pos := catmullRomPoint ((i : ℝ) / (segStampCount brush c : ℝ))
            c.p0 c.p1 c.p2 c.p3
          pressure := c.pressure1 + (c.pressure2 - c.pressure1) *
            ((i : ℝ) / (segStampCount brush c : ℝ)) }) := by
    simp only [drawSplineSegment, segStampCount, segSpacing, segEffectivePressure]
  refine ⟨hlist, hsp, ?_, hcount, ?_⟩
  · intro h
    rw [h] at hsp
    linarith
  · rw [hlist]
    simp

/-- C6: every painted stamp has size `brush.size × effectivePressure` and
alpha `max(0.2, effectivePressure × brush.alpha)`, where the effective
pressure is the given pressure when positive and 0.5 otherwise; the alpha is
never below 0.2, and a pressure of exactly 0 is substituted with 0.5 at the
point of consumption. -/
theorem c6_stamp_size_and_alpha (brush : Brush) (x y pressure rX rY : ℝ) :
    ((paintBrush brush x y pressure rX rY).1.size =
        brush.size * (if pressure > 0 then pressure else 0.5)) ∧
    ((paintBrush brush x y pressure rX rY).1.alpha =
        max 0.2 ((if pressure > 0 then pressure else 0.5) * brush.alpha)) ∧
    (0.2 ≤ (paintBrush brush x y pressure rX rY).1.alpha) ∧
    ((paintBrush brush x y 0 rX rY).1.size = brush.size * 0.5) ∧
    ((paintBrush brush x y 0 rX rY).1.alpha = max 0.2 (0.5 * brush.alpha)) := by
  refine ⟨rfl, rfl, le_max_left _ _, ?_, ?_⟩
  · simp [paintBrush]
  · simp [paintBrush]

lemma paintBrush_jitter_zero (brush : Brush) (h : brush.stroke.jitter = 0)
    (x y pressure rX rY rX' rY' : ℝ) :
    paintBrush brush x y pressure rX rY =
      paintBrush brush x y pressure rX' rY' := by
  simp [paintBrush, h]

/-- C8: with `brush.stroke.jitter = 0`, rendering the same processed
segments with the same brush under any two randomness streams produces the
same stamps — positions, sizes and all — so the stamping pipeline is
deterministic when jitter is disabled. -/
theorem c8_jitter_zero_deterministic (brush : Brush)
    (h : brush.stroke.jitter = 0) (calls : List SegmentCall)
    (rand rand' : ℕ → ℕ → ℝ × ℝ) :
    renderStroke brush calls rand = renderStroke brush calls rand' := by
  have hseg : ∀ (c : SegmentCall) (r r' : ℕ → ℝ × ℝ),
      renderSegment brush c r = renderSegment brush c r' := by
    intro c r r'
    unfold renderSegment
    rw [List.mapIdx_eq_enum_map, List.mapIdx_eq_enum_map]
    refine List.map_congr_left fun a _ => ?_
    obtain ⟨i, req⟩ := a
    simpa [Function.uncurry] using
      paintBrush_jitter_zero brush h req.pos.x req.pos.y req.pressure
        (r i).1 (r i).2 (r' i).1 (r' i).2
  unfold renderStroke
  rw [List.mapIdx_eq_enum_map, List.mapIdx_eq_enum_map]
  refine List.map_congr_left fun a _ => ?_
  obtain ⟨j, c⟩ := a
  simpa [Function.uncurry] using hseg c (rand j) (rand' j)

/-- A concrete one-segment stroke used to witness the determinism theorem. -/
def jitterFreeCall : SegmentCall :=
  { p0 := ⟨0, 0⟩, p1 := ⟨0, 0⟩, p2 := ⟨1, 0⟩, p3 := ⟨1, 0⟩
    pressure1 := 1, pressure2 := 1 }

/-- Witness for C8: the default brush has jitter 0, and two runs under
different randomness streams coincide. -/
theorem c8_witness :
    defaultBrush.stroke.jitter = 0 ∧
      renderStroke defaultBrush [jitterFreeCall] (fun _ _ => (0, 0)) =
        renderStroke defaultBrush [jitterFreeCall] (fun _ _ => (1, 1)) :=
  ⟨rfl, c8_jitter_zero_deterministic defaultBrush rfl [jitterFreeCall] _ _⟩

/-- C9: if the `generateTexture` call throws during `flatten`, the state is
left untouched — the persistent surface keeps its previous texture and no
trail sprite is destroyed — and the error is surfaced; the persistent
surface receives a new texture (and the trail is drained) exactly when the
rasterization succeeds. -/
theorem c9_flatten_failure_preserves_state :
    (∀ (s : CanvasState) (e : RasterError),
        flatten (Except.error e) s = (s, [], some e)) ∧
    (∀ (s : CanvasState) (t : Tex),
        flatten (Except.ok t) s =
          ({ s with permanentTexture := t, trail := [] },
            s.trail.reverse, none)) :=
  ⟨fun _ _ => rfl, fun _ _ => rfl⟩

/-- A reachable state with a pending flatten timer: a stroke has just ended,
so `onDrawEnd` has armed the 500 ms debounced flatten. -/
def endedState : CanvasState :=
  (onDrawEnd
    { isDrawing := true, pathPoints := [⟨0, 0⟩], pressurePoints := [1]
      trail := [0], permanentTexture := Tex.empty
      flattenPending := false }).1

/-- C2 counterexample: after a stroke end has scheduled a flatten, calling
`clear()` leaves the flatten timer pending — the source's `clear` never
touches `flattenTimeout` — and when that timer later fires, the flatten
still replaces the just-cleared persistent surface.  This refutes the
claim that `clear()` cancels any pending flatten timer. -/
theorem c2_counterexample :
    endedState.flattenPending = true ∧
      (clear endedState).1.flattenPending = true ∧
      (flatten (Except.ok (Tex.generated 1))
          (clear endedState).1).1.permanentTexture = Tex.generated 1 :=
  ⟨rfl, rfl, rfl⟩

/-- C2 amended: `clear()` resets the persistent surface to the empty
texture and destroys and removes every live trail primitive (in pop order),
leaving the trail empty, from any state; it does not cancel a pending
flatten timer — the pending flag is unchanged, so a flatten scheduled by a
preceding stroke end still fires afterwards. -/
theorem c2_amended_clear_behaviour (s : CanvasState) :
    (clear s).1.permanentTexture = Tex.empty ∧
      (clear s).1.trail = [] ∧
      (clear s).2 = s.trail.reverse ∧
      (clear s).1.flattenPending = s.flattenPending ∧
      (clear s).1.isDrawing = s.isDrawing ∧
      (clear s).1.pathPoints = s.pathPoints :=
  ⟨rfl, rfl, rfl, rfl, rfl, rfl⟩

lemma getD_default_irrel {α : Type*} (l : List α) (n : ℕ) (h : n < l.length)
    (d d' : α) : l.getD n d = l.getD n d' := by
  simp [List.getD_eq_getElem?_getD, List.getElem?_eq_getElem h]

lemma getLastD_eq_getD {α : Type*} (l : List α) (d : α) :
    l.getLastD d = l.getD (l.length - 1) d := by
  rw [List.getLastD_eq_getLast?, List.getLast?_eq_getElem?,
    List.getD_eq_getElem?_getD]

/-- Evaluation of `onDrawMove` on an accepted sample when at least two
points are already recorded: the point and pressure are appended, and the
segmenter is invoked with `p1` the previously last accepted point, `p2` the
newly accepted point, and `p3` falling back to `p2` (index
`pathPoints.length` is out of range). -/
lemma onDrawMove_accept (s : CanvasState) (newPoint : Pt) (pressure : ℝ)
    (hdraw : s.isDrawing = true)
    (hacc : ¬ hypot (newPoint.x - (s.pathPoints.getLastD newPoint).x)
        (newPoint.y - (s.pathPoints.getLastD newPoint).y) < 4)
    (hlen : 2 ≤ s.pathPoints.length)
    (hplen : s.pressurePoints.length = s.pathPoints.length) :
    onDrawMove s newPoint pressure =
      ({ s with pathPoints := s.pathPoints ++ [newPoint]
                pressurePoints := s.pressurePoints ++ [pressure] },
        some { p0 := s.pathPoints.getD (s.pathPoints.length - 2) newPoint
               p1 := s.pathPoints.getD (s.pathPoints.length - 1) newPoint
               p2 := newPoint
               p3 := newPoint
               pressure1 := s.pressurePoints.getD (s.pathPoints.length - 1)
                 pressure
               pressure2 := pressure }) := by
  have hne2 : ¬ (s.pathPoints ++ [newPoint]).length = 2 := by
    simp
    omega
  have hi1 : ¬ (s.pathPoints ++ [newPoint]).length - 2 < 1 := by
    simp
    omega
  unfold onDrawMove
  rw [if_pos hdraw, if_neg hacc, if_neg hne2, if_neg hi1]
  have hil : (s.pathPoints ++ [newPoint]).length - 2 =
      s.pathPoints.length - 1 := by
    simp
  have gp1 : (s.pathPoints ++ [newPoint]).getD (s.pathPoints.length - 1)
      newPoint = s.pathPoints.getD (s.pathPoints.length - 1) newPoint :=
    List.getD_append _ _ _ _ (by omega)
  have gp2 : (s.pathPoints ++ [newPoint]).getD (s.pathPoints.length - 1 + 1)
      newPoint = newPoint := by
    rw [show s.pathPoints.length - 1 + 1 = s.pathPoints.length by omega]
    rw [List.getD_append_right _ _ _ _ (le_refl _)]
    simp
  have gp0 : (s.pathPoints ++ [newPoint]).getD (s.pathPoints.length - 1 - 1)
      (s.pathPoints.getD (s.pathPoints.length - 1) newPoint) =
      s.pathPoints.getD (s.pathPoints.length - 2) newPoint := by
    rw [show s.pathPoints.length - 1 - 1 = s.pathPoints.length - 2 by omega]
    rw [List.getD_append _ _ _ _ (by omega)]
    exact getD_default_irrel _ _ (by omega) _ _
  have gp3 : (s.pathPoints ++ [newPoint]).getD (s.pathPoints.length - 1 + 2)
      newPoint = newPoint :=
    List.getD_eq_default _ _ (by simp; omega)
  have gq1 : (s.pressurePoints ++ [pressure]).getD (s.pathPoints.length - 1)
      pressure = s.pressurePoints.getD (s.pathPoints.length - 1) pressure :=
    List.getD_append _ _ _ _ (by omega)
  have gq2 : (s.pressurePoints ++ [pressure]).getD
      (s.pathPoints.length - 1 + 1) pressure = pressure := by
    rw [show s.pathPoints.length - 1 + 1 = s.pathPoints.length by omega]
    rw [List.getD_append_right _ _ _ _ (by omega)]
    simp [hplen]
  simp only [hil, gp1, gp2, gp0, gp3, gq1, gq2]

/-- Evaluation of `onDrawMove` on an accepted sample when exactly one point
is recorded: the `pathPoints.length === 2` branch fires, and the emitted
call has the same shape as the general one (the `getD` indices collapse
to 0). -/
lemma onDrawMove_accept_single (s : CanvasState) (newPoint : Pt)
    (pressure : ℝ)
    (hdraw : s.isDrawing = true)
    (hacc : ¬ hypot (newPoint.x - (s.pathPoints.getLastD newPoint).x)
        (newPoint.y - (s.pathPoints.getLastD newPoint).y) < 4)
    (h1 : s.pathPoints.length = 1)
    (hplen : s.pressurePoints.length = s.pathPoints.length) :
    onDrawMove s newPoint pressure =
      ({ s with pathPoints := s.pathPoints ++ [newPoint]
                pressurePoints := s.pressurePoints ++ [pressure] },
        some { p0 := s.pathPoints.getD (s.pathPoints.length - 2) newPoint
               p1 := s.pathPoints.getD (s.pathPoints.length - 1) newPoint
               p2 := newPoint
               p3 := newPoint
               pressure1 := s.pressurePoints.getD (s.pathPoints.length - 1)
                 pressure
               pressure2 := pressure }) := by
  have h2 : (s.pathPoints ++ [newPoint]).length = 2 := by simp [h1]
  unfold onDrawMove
  rw [if_pos hdraw, if_neg hacc, if_pos h2]
  have e0 : s.pathPoints.length - 2 = 0 := by omega
  have e1 : s.pathPoints.length - 1 = 0 := by omega
  rw [e0, e1]
  have g0 : (s.pathPoints ++ [newPoint]).getD 0 newPoint =
      s.pathPoints.getD 0 newPoint :=
    List.getD_append _ _ _ _ (by omega)
  have g1 : (s.pathPoints ++ [newPoint]).getD 1 newPoint = newPoint := by
    rw [List.getD_append_right _ _ _ _ (by omega)]
    simp [h1]
  have q0 : (s.pressurePoints ++ [pressure]).getD 0 pressure =
      s.pressurePoints.getD 0 pressure :=
    List.getD_append _ _ _ _ (by omega)
  have q1 : (s.pressurePoints ++ [pressure]).getD 1 pressure = pressure := by
    rw [List.getD_append_right _ _ _ _ (by omega)]
    simp [hplen, h1]
  simp only [g0, g1, q0, q1]

/-- Evaluation of `onDrawMove` on any accepted sample during an active
stroke: uniform over both branches of the handler. -/
lemma onDrawMove_accept_any (s : CanvasState) (newPoint : Pt) (pressure : ℝ)
    (hdraw : s.isDrawing = true)
    (hacc : ¬ hypot (newPoint.x - (s.pathPoints.getLastD newPoint).x)
        (newPoint.y - (s.pathPoints.getLastD newPoint).y) < 4)
    (hlen : 1 ≤ s.pathPoints.length)
    (hplen : s.pressurePoints.length = s.pathPoints.length) :
    onDrawMove s newPoint pressure =
      ({ s with pathPoints := s.pathPoints ++ [newPoint]
                pressurePoints := s.pressurePoints ++ [pressure] },
        some { p0 := s.pathPoints.getD (s.pathPoints.length - 2) newPoint
               p1 := s.pathPoints.getD (s.pathPoints.length - 1) newPoint
               p2 := newPoint
               p3 := newPoint
               pressure1 := s.pressurePoints.getD (s.pathPoints.length - 1)
                 pressure
               pressure2 := pressure }) := by
  rcases Nat.lt_or_ge s.pathPoints.length 2 with hl | hl
  · exact onDrawMove_accept_single s newPoint pressure hdraw hacc
      (by omega) hplen
  · exact onDrawMove_accept s newPoint pressure hdraw hacc hl hplen

/-- Evaluation of `onDrawEnd` when a stroke with at least two points is
active: the literal final segment call of the source, `p3` duplicated to
`p2`. -/
lemma onDrawEnd_eval (s : CanvasState) (hdraw : s.isDrawing = true)
    (hlen : 1 < s.pathPoints.length) :
    (onDrawEnd s).2 =
      some { p0 := s.pathPoints.getD (s.pathPoints.length - 2 - 1)
               (s.pathPoints.getD (s.pathPoints.length - 2) ⟨0, 0⟩)
             p1 := s.pathPoints.getD (s.pathPoints.length - 2) ⟨0, 0⟩
             p2 := s.pathPoints.getD (s.pathPoints.length - 2 + 1)
               (s.pathPoints.getD (s.pathPoints.length - 2) ⟨0, 0⟩)
             p3 := s.pathPoints.getD (s.pathPoints.length - 2 + 1)
               (s.pathPoints.getD (s.pathPoints.length - 2) ⟨0, 0⟩)
             pressure1 := s.pressurePoints.getD (s.pathPoints.length - 2) 0
             pressure2 := jsNumOr
               (s.pressurePoints.getD (s.pathPoints.length - 2 + 1) 0)
               (s.pressurePoints.getD (s.pathPoints.length - 2) 0) } := by
  unfold onDrawEnd
  rw [if_pos ⟨hdraw, hlen⟩]

/-- The straight-line distance 10 used by the concrete strokes below is not
below the 4-pixel anti-jitter threshold. -/
lemma hypot_ten_ge_four : (4 : ℝ) ≤ hypot 10 0 := by
  unfold hypot
  rw [show (10 : ℝ) ^ 2 + 0 ^ 2 = 10 ^ 2 by norm_num,
    Real.sqrt_sq (by norm_num)]
  norm_num

/-- A mid-stroke state with two accepted points, `(0,0)` and `(10,0)`. -/
def twoPointState : CanvasState :=
  { isDrawing := true
    pathPoints := [⟨0, 0⟩, ⟨10, 0⟩]
    pressurePoints := [1, 1]
    trail := []
    permanentTexture := Tex.empty
    flattenPending := false }

/-- C1 counterexample: with accepted points `(0,0)`, `(10,0)` and a third
accepted move to `(20,0)`, the segmenter is called with `p1 = (10,0)`,
`p2 = (20,0)` and `p3 = (20,0)` — the processed segment ends at the newest
accepted point, with `p3` duplicated to `p2` — not, as claimed, with the
segment `(0,0)–(10,0)` and the newest point `(20,0)` as `p3`. -/
theorem c1_counterexample :
    (onDrawMove twoPointState ⟨20, 0⟩ 1).2 =
        some { p0 := ⟨0, 0⟩, p1 := ⟨10, 0⟩, p2 := ⟨20, 0⟩, p3 := ⟨20, 0⟩
               pressure1 := 1, pressure2 := 1 } ∧
      (onDrawMove twoPointState ⟨20, 0⟩ 1).2 ≠
        some { p0 := ⟨0, 0⟩, p1 := ⟨0, 0⟩, p2 := ⟨10, 0⟩, p3 := ⟨20, 0⟩
               pressure1 := 1, pressure2 := 1 } := by
  have hacc : ¬ hypot ((⟨20, 0⟩ : Pt).x -
        (twoPointState.pathPoints.getLastD ⟨20, 0⟩).x)
      ((⟨20, 0⟩ : Pt).y - (twoPointState.pathPoints.getLastD ⟨20, 0⟩).y) <
        4 := by
    have hl : twoPointState.pathPoints.getLastD ⟨20, 0⟩ = ⟨10, 0⟩ := rfl
    rw [hl]
    show ¬ hypot (20 - 10) (0 - 0) < 4
    rw [show (20 : ℝ) - 10 = 10 by norm_num, show (0 : ℝ) - 0 = 0 by norm_num]
    exact not_lt.mpr hypot_ten_ge_four
  have hev := onDrawMove_accept twoPointState ⟨20, 0⟩ 1 rfl hacc
    (by simp [twoPointState]) rfl
  rw [hev]
  constructor
  · rfl
  · intro h
    have h10 : (10 : ℝ) = 0 := congrArg Pt.x (congrArg SegmentCall.p1
      (Option.some.inj h))
    norm_num at h10

/-- C1 amended: during an active stroke, every accepted move that brings
the path to `n ≥ 3` points invokes the segmenter with `p1 = point[n-2]`
(the previously last accepted point), `p2 = point[n-1]` (the newest
accepted point) and `p3` duplicated to `p2` — the lookahead index `n` is
always out of range mid-stream — so segment processing does not lag behind
the live cursor and the newest point is the segment's trailing endpoint,
not merely the control point `p3`. -/
theorem c1_amended_segment_ends_at_newest_point (s : CanvasState)
    (newPoint : Pt) (pressure : ℝ)
    (hdraw : s.isDrawing = true)
    (hlen : 2 ≤ s.pathPoints.length)
    (hplen : s.pressurePoints.length = s.pathPoints.length)
    (hacc : ¬ hypot (newPoint.x - (s.pathPoints.getLastD newPoint).x)
        (newPoint.y - (s.pathPoints.getLastD newPoint).y) < 4) :
    (onDrawMove s newPoint pressure).2 =
      some { p0 := s.pathPoints.getD (s.pathPoints.length - 2) newPoint
             p1 := s.pathPoints.getD (s.pathPoints.length - 1) newPoint
             p2 := newPoint
             p3 := newPoint
             pressure1 := s.pressurePoints.getD (s.pathPoints.length - 1)
               pressure
             pressure2 := pressure } := by
  rw [onDrawMove_accept s newPoint pressure hdraw hacc hlen hplen]

/-- Witness for the amended C1 theorem on the concrete two-point stroke. -/
theorem c1_amended_witness :
    twoPointState.isDrawing = true ∧
      2 ≤ twoPointState.pathPoints.length ∧
      twoPointState.pressurePoints.length = twoPointState.pathPoints.length ∧
      ¬ hypot ((⟨20, 0⟩ : Pt).x -
            (twoPointState.pathPoints.getLastD ⟨20, 0⟩).x)
          ((⟨20, 0⟩ : Pt).y - (twoPointState.pathPoints.getLastD ⟨20, 0⟩).y) <
          4 ∧
      (onDrawMove twoPointState ⟨20, 0⟩ 1).2 =
        some { p0 := twoPointState.pathPoints.getD
                 (twoPointState.pathPoints.length - 2) ⟨20, 0⟩
               p1 := twoPointState.pathPoints.getD
                 (twoPointState.pathPoints.length - 1) ⟨20, 0⟩
               p2 := ⟨20, 0⟩
               p3 := ⟨20, 0⟩
               pressure1 := twoPointState.pressurePoints.getD
                 (twoPointState.pathPoints.length - 1) 1
               pressure2 := 1 } := by
  have hacc : ¬ hypot ((⟨20, 0⟩ : Pt).x -
        (twoPointState.pathPoints.getLastD ⟨20, 0⟩).x)
      ((⟨20, 0⟩ : Pt).y - (twoPointState.pathPoints.getLastD ⟨20, 0⟩).y) <
        4 := by
    have hl : twoPointState.pathPoints.getLastD ⟨20, 0⟩ = ⟨10, 0⟩ := rfl
    rw [hl]
    show ¬ hypot (20 - 10) (0 - 0) < 4
    rw [show (20 : ℝ) - 10 = 10 by norm_num, show (0 : ℝ) - 0 = 0 by norm_num]
    exact not_lt.mpr hypot_ten_ge_four
  exact ⟨rfl, by simp [twoPointState], rfl, hacc,
    c1_amended_segment_ends_at_newest_point twoPointState ⟨20, 0⟩ 1 rfl
      (by simp [twoPointState]) rfl hacc⟩

/-- C10 amended: for every stroke whose last sample was accepted by the
move handler *with a nonzero pressure*, ending the stroke re-invokes the
segmenter with exactly the call the move handler already made for that
sample (same four control points — `p3` duplicated to `p2` — and the same
endpoint pressures), so the final segment of such a stroke is stamped
twice, overlapping at the same curve positions.  When the last recorded
pressure is 0, `pressurePoints[i + 1] || pressure1` substitutes
`pressure1` instead, and the re-emitted call can differ (see the
counterexample). -/
theorem c10_end_reemits_final_segment (s : CanvasState) (newPoint : Pt)
    (pressure : ℝ) (c : SegmentCall)
    (hdraw : s.isDrawing = true)
    (hne : s.pathPoints ≠ [])
    (hplen : s.pressurePoints.length = s.pathPoints.length)
    (hpr : pressure ≠ 0)
    (hmove : (onDrawMove s newPoint pressure).2 = some c) :
    (onDrawEnd (onDrawMove s newPoint pressure).1).2 = some c := by
  have hpos : 0 < s.pathPoints.length := List.length_pos.mpr hne
  have hacc : ¬ hypot (newPoint.x - (s.pathPoints.getLastD newPoint).x)
      (newPoint.y - (s.pathPoints.getLastD newPoint).y) < 4 := by
    intro hlt
    have hev : onDrawMove s newPoint pressure = (s, none) := by
      unfold onDrawMove
      rw [if_pos hdraw, if_pos hlt]
    rw [hev] at hmove
    simp at hmove
  have hev := onDrawMove_accept_any s newPoint pressure hdraw hacc hpos hplen
  rw [hev] at hmove ⊢
  obtain rfl := Option.some.inj hmove
  have hdraw' : ({ s with pathPoints := s.pathPoints ++ [newPoint]
                          pressurePoints := s.pressurePoints ++ [pressure] } :
      CanvasState).isDrawing = true := hdraw
  have hlen' : 1 < ({ s with pathPoints := s.pathPoints ++ [newPoint]
                             pressurePoints := s.pressurePoints ++ [pressure] } :
      CanvasState).pathPoints.length := by
    simp
    omega
  rw [onDrawEnd_eval _ hdraw' hlen']
  have hL2 : (s.pathPoints ++ [newPoint]).length - 2 =
      s.pathPoints.length - 1 := by simp
  have hL21 : s.pathPoints.length - 1 - 1 = s.pathPoints.length - 2 := by
    omega
  have hL1 : s.pathPoints.length - 1 + 1 = s.pathPoints.length := by omega
  have gA : (s.pathPoints ++ [newPoint]).getD (s.pathPoints.length - 1)
      (⟨0, 0⟩ : Pt) = s.pathPoints.getD (s.pathPoints.length - 1) newPoint := by
    rw [List.getD_append _ _ _ _ (by omega)]
    exact getD_default_irrel _ _ (by omega) _ _
  have gB : (s.pathPoints ++ [newPoint]).getD (s.pathPoints.length - 2)
      (s.pathPoints.getD (s.pathPoints.length - 1) newPoint) =
      s.pathPoints.getD (s.pathPoints.length - 2) newPoint := by
    rw [List.getD_append _ _ _ _ (by omega)]
    exact getD_default_irrel _ _ (by omega) _ _
  have gC : (s.pathPoints ++ [newPoint]).getD s.pathPoints.length
      (s.pathPoints.getD (s.pathPoints.length - 1) newPoint) = newPoint := by
    rw [List.getD_append_right _ _ _ _ (le_refl _)]
    simp
  have gD : (s.pressurePoints ++ [pressure]).getD (s.pathPoints.length - 1)
      0 = s.pressurePoints.getD (s.pathPoints.length - 1) pressure := by
    rw [List.getD_append _ _ _ _ (by omega)]
    exact getD_default_irrel _ _ (by omega) _ _
  have gE : (s.pressurePoints ++ [pressure]).getD s.pathPoints.length 0 =
      pressure := by
    rw [List.getD_append_right _ _ _ _ (by omega)]
    simp [hplen]
  simp only [hL2, hL21, hL1, gA, gB, gC, gD, gE]
  simp [jsNumOr, hpr]

/-- The state right after a pointer-down at `(0,0)` with pressure 1. -/
def singlePointState : CanvasState :=
  { isDrawing := true
    pathPoints := [⟨0, 0⟩]
    pressurePoints := [1]
    trail := []
    permanentTexture := Tex.empty
    flattenPending := false }

/-- The segmenter call emitted for the accepted move of the one-segment
stroke `(0,0) → (10,0)`, both by the move handler and again by the end
handler. -/
def singleStrokeCall : SegmentCall :=
  { p0 := ⟨0, 0⟩, p1 := ⟨0, 0⟩, p2 := ⟨10, 0⟩, p3 := ⟨10, 0⟩
    pressure1 := 1, pressure2 := 1 }

/-- Witness for C10 on the concrete stroke `(0,0) → (10,0)`. -/
theorem c10_witness :
    singlePointState.isDrawing = true ∧
      singlePointState.pathPoints ≠ [] ∧
      singlePointState.pressurePoints.length =
        singlePointState.pathPoints.length ∧
      (1 : ℝ) ≠ 0 ∧
      (onDrawMove singlePointState ⟨10, 0⟩ 1).2 = some singleStrokeCall ∧
      (onDrawEnd (onDrawMove singlePointState ⟨10, 0⟩ 1).1).2 =
        some singleStrokeCall := by
  have hacc : ¬ hypot ((⟨10, 0⟩ : Pt).x -
        (singlePointState.pathPoints.getLastD ⟨10, 0⟩).x)
      ((⟨10, 0⟩ : Pt).y - (singlePointState.pathPoints.getLastD ⟨10, 0⟩).y) <
        4 := by
    have hl : singlePointState.pathPoints.getLastD ⟨10, 0⟩ = ⟨0, 0⟩ := rfl
    rw [hl]
    show ¬ hypot (10 - 0) (0 - 0) < 4
    rw [show (10 : ℝ) - 0 = 10 by norm_num, show (0 : ℝ) - 0 = 0 by norm_num]
    exact not_lt.mpr hypot_ten_ge_four
  have hm : (onDrawMove singlePointState ⟨10, 0⟩ 1).2 =
      some singleStrokeCall := by
    rw [onDrawMove_accept_any singlePointState ⟨10, 0⟩ 1 rfl hacc
      (by simp [singlePointState]) rfl]
    rfl
  exact ⟨rfl, by simp [singlePointState], rfl, one_ne_zero, hm,
    c10_end_reemits_final_segment singlePointState ⟨10, 0⟩ 1
      singleStrokeCall rfl (by simp [singlePointState]) rfl one_ne_zero hm⟩

/-- `Math.hypot(d, 0)` is `d` itself when `d` is nonnegative. -/
lemma hypot_nonneg_eval (d : ℝ) (hd : 0 ≤ d) : hypot d 0 = d := by
  unfold hypot
  rw [show d ^ 2 + 0 ^ 2 = d ^ 2 by ring, Real.sqrt_sq hd]

/-- The cubic weight `t + 3t² - 2t³` of the doubled-endpoint Catmull-Rom
segment is monotone on `[0, 1]`. -/
lemma catmullWeight_mono {a b : ℝ} (ha : 0 ≤ a) (hab : a ≤ b) (hb : b ≤ 1) :
    a + 3 * a ^ 2 - 2 * a ^ 3 ≤ b + 3 * b ^ 2 - 2 * b ^ 3 := by
  nlinarith [mul_nonneg (sub_nonneg.2 hab) (mul_nonneg ha (sub_nonneg.2 hb)),
    mul_nonneg (sub_nonneg.2 hab)
      (mul_nonneg (ha.trans hab) (sub_nonneg.2 (hab.trans hb))),
    mul_nonneg (sub_nonneg.2 hab)
      (mul_nonneg ha (sub_nonneg.2 (hab.trans hb))),
    mul_nonneg (sub_nonneg.2 hab) (mul_nonneg (ha.trans hab) (sub_nonneg.2 hb)),
    sub_nonneg.2 hab]

/-- On the degenerate segment `p0 = p1 = (0,0)`, `p2 = p3 = (L,0)`, the
curve samples lie on the x-axis, at `L` times the cubic weight. -/
lemma curveSample_line (L : ℝ) (n i : ℕ) :
    curveSample ⟨0, 0⟩ ⟨0, 0⟩ ⟨L, 0⟩ ⟨L, 0⟩ n i =
      ⟨L * (((i : ℝ) / n + 3 * ((i : ℝ) / n) ^ 2 - 2 * ((i : ℝ) / n) ^ 3) / 2),
        0⟩ := by
  simp only [curveSample, catmullRomPoint]
  ext
  · norm_num
    ring
  · norm_num

/-- The sampled length of the degenerate segment `(0,0) → (L,0)` is exactly
`L`: the samples move monotonically along the x-axis, so the polyline sum
telescopes. -/
lemma catmullRomLength_line (L : ℝ) (hL : 0 ≤ L) (n : ℕ) (hn : n ≠ 0) :
    catmullRomLength ⟨0, 0⟩ ⟨0, 0⟩ ⟨L, 0⟩ ⟨L, 0⟩ n = L := by
  have hnR : (0 : ℝ) < (n : ℝ) := by
    exact_mod_cast Nat.pos_of_ne_zero hn
  rw [catmullRomLength_eq_sum]
  have key : ∀ i ∈ Finset.range n,
      ptDist (curveSample ⟨0, 0⟩ ⟨0, 0⟩ ⟨L, 0⟩ ⟨L, 0⟩ n i)
        (curveSample ⟨0, 0⟩ ⟨0, 0⟩ ⟨L, 0⟩ ⟨L, 0⟩ n (i + 1)) =
      (fun j : ℕ => L * (((j : ℝ) / n + 3 * ((j : ℝ) / n) ^ 2 -
        2 * ((j : ℝ) / n) ^ 3) / 2)) (i + 1) -
      (fun j : ℕ => L * (((j : ℝ) / n + 3 * ((j : ℝ) / n) ^ 2 -
        2 * ((j : ℝ) / n) ^ 3) / 2)) i := by
    intro i hi
    have hin : (i : ℝ) / n ≤ ((i : ℝ) + 1) / n := by
      apply div_le_div_of_nonneg_right _ (le_of_lt hnR)
      linarith
    have hi0 : 0 ≤ (i : ℝ) / n := by positivity
    have hi1 : ((i : ℝ) + 1) / n ≤ 1 := by
      rw [div_le_one hnR]
      have : i + 1 ≤ n := Finset.mem_range.mp hi
      exact_mod_cast this
    have hw := catmullWeight_mono hi0 hin hi1
    have hmono : L * (((i : ℝ) / n + 3 * ((i : ℝ) / n) ^ 2 -
        2 * ((i : ℝ) / n) ^ 3) / 2) ≤
        L * ((((i : ℝ) + 1) / n + 3 * (((i : ℝ) + 1) / n) ^ 2 -
        2 * (((i : ℝ) + 1) / n) ^ 3) / 2) := by
      have h2 := mul_le_mul_of_nonneg_left hw hL
      linarith
    rw [curveSample_line, curveSample_line]
    simp only [ptDist]
    rw [show ((0 : ℝ) - 0) = 0 by ring]
    push_cast
    rw [hypot_nonneg_eval _ (by linarith)]
  rw [Finset.sum_congr rfl key,
    Finset.sum_range_sub (fun j : ℕ => L * (((j : ℝ) / n +
      3 * ((j : ℝ) / n) ^ 2 - 2 * ((j : ℝ) / n) ^ 3) / 2)) n]
  have h1 : ((n : ℝ)) / (n : ℝ) = 1 := div_self (ne_of_gt hnR)
  norm_num [h1]

/-- `drawSplineSegment` always emits `segStampCount + 1` stamp requests. -/
lemma drawSplineSegment_length (brush : Brush) (c : SegmentCall) :
    (drawSplineSegment brush c).length = segStampCount brush c + 1 := by
  unfold drawSplineSegment segStampCount segSpacing segEffectivePressure
  simp

/-- The drawing state after the single accepted move of the stroke
`(0,0) → (11,0)` whose second sample reports pressure 0. -/
def c10MidState : CanvasState :=
  { isDrawing := true
    pathPoints := [⟨0, 0⟩, ⟨11, 0⟩]
    pressurePoints := [1, 0]
    trail := []
    permanentTexture := Tex.empty
    flattenPending := false }

/-- The segmenter call made by the move handler for the accepted sample
`(11,0)` with pressure 0. -/
def c10MoveCall : SegmentCall :=
  { p0 := ⟨0, 0⟩, p1 := ⟨0, 0⟩, p2 := ⟨11, 0⟩, p3 := ⟨11, 0⟩
    pressure1 := 1, pressure2 := 0 }

/-- The segmenter call made by the end handler for the same stroke:
`pressurePoints[i + 1] || pressure1` sends the recorded pressure 0 to
`pressure1 = 1`. -/
def c10EndCall : SegmentCall :=
  { p0 := ⟨0, 0⟩, p1 := ⟨0, 0⟩, p2 := ⟨11, 0⟩, p3 := ⟨11, 0⟩
    pressure1 := 1, pressure2 := 1 }

/-- C10 counterexample: on the stroke `(0,0) → (11,0)` with pressures 1
then 0 (a legal "pressure not reported" sample) and the default brush, the
move handler's segmenter call carries `pressure2 = 0` but the end handler's
re-emission carries `pressure2 = 1` (JS `||` treats the recorded 0 as
falsy), so the two calls differ; the move call yields 10 stamp requests
while the end call yields 6, so the end handler does not emit a second,
overlapping set of stamps at the same curve positions. -/
theorem c10_counterexample :
    (onDrawMove singlePointState ⟨11, 0⟩ 0).2 = some c10MoveCall ∧
      (onDrawEnd (onDrawMove singlePointState ⟨11, 0⟩ 0).1).2 =
        some c10EndCall ∧
      c10EndCall ≠ c10MoveCall ∧
      (drawSplineSegment defaultBrush c10MoveCall).length = 10 ∧
      (drawSplineSegment defaultBrush c10EndCall).length = 6 := by
  have hacc : ¬ hypot ((⟨11, 0⟩ : Pt).x -
        (singlePointState.pathPoints.getLastD ⟨11, 0⟩).x)
      ((⟨11, 0⟩ : Pt).y - (singlePointState.pathPoints.getLastD ⟨11, 0⟩).y) <
        4 := by
    have hl : singlePointState.pathPoints.getLastD ⟨11, 0⟩ = ⟨0, 0⟩ := rfl
    rw [hl]
    show ¬ hypot (11 - 0) (0 - 0) < 4
    rw [show (11 : ℝ) - 0 = 11 by norm_num, show (0 : ℝ) - 0 = 0 by norm_num,
      hypot_nonneg_eval 11 (by norm_num)]
    norm_num
  have hev := onDrawMove_accept_any singlePointState ⟨11, 0⟩ 0 rfl hacc
    (by simp [singlePointState]) rfl
  have hm2 : (onDrawMove singlePointState ⟨11, 0⟩ 0).2 = some c10MoveCall := by
    rw [hev]
    rfl
  have hm1 : (onDrawMove singlePointState ⟨11, 0⟩ 0).1 = c10MidState := by
    rw [hev]
    rfl
  have hend : (onDrawEnd (onDrawMove singlePointState ⟨11, 0⟩ 0).1).2 =
      some c10EndCall := by
    rw [hm1, onDrawEnd_eval c10MidState rfl (by norm_num [c10MidState])]
    simp [c10MidState, c10EndCall, jsNumOr]
  have hneq : c10EndCall ≠ c10MoveCall := by
    intro h
    have h01 := congrArg SegmentCall.pressure2 h
    simp only [c10EndCall, c10MoveCall] at h01
    norm_num at h01
  have h11 : catmullRomLength ⟨0, 0⟩ ⟨0, 0⟩ ⟨11, 0⟩ ⟨11, 0⟩ 20 = 11 :=
    catmullRomLength_line 11 (by norm_num) 20 (by norm_num)
  have hspM : segSpacing defaultBrush c10MoveCall = 5 / 4 := by
    unfold segSpacing segEffectivePressure
    simp only [c10MoveCall, defaultBrush]
    norm_num
  have hcountM : segStampCount defaultBrush c10MoveCall = 9 := by
    unfold segStampCount
    rw [hspM]
    simp only [c10MoveCall]
    rw [h11, show (11 : ℝ) / (5 / 4) = 44 / 5 by norm_num,
      show ⌈(44 / 5 : ℝ)⌉ = (9 : ℤ) from by
        rw [Int.ceil_eq_iff]
        constructor <;> norm_num]
    decide
  have hspE : segSpacing defaultBrush c10EndCall = 5 / 2 := by
    unfold segSpacing segEffectivePressure
    simp only [c10EndCall, defaultBrush]
    norm_num
  have hcountE : segStampCount defaultBrush c10EndCall = 5 := by
    unfold segStampCount
    rw [hspE]
    simp only [c10EndCall]
    rw [h11, show (11 : ℝ) / (5 / 2) = 22 / 5 by norm_num,
      show ⌈(22 / 5 : ℝ)⌉ = (5 : ℤ) from by
        rw [Int.ceil_eq_iff]
        constructor <;> norm_num]
    decide
  refine ⟨hm2, hend, hneq, ?_, ?_⟩
  · rw [drawSplineSegment_length, hcountM]
  · rw [drawSplineSegment_length, hcountE]

end
